import Mathlib

/-!
Shallow embedding of the Hugdl model downloader (Go).

The repository holds two versions of the same tool: `main.go` (the "full"
version, with a progress bar) and `hugdl.go` (the "simple" version, standard
library only; `src/unnamed/part_000`). Both consist of `getModelFiles`
(list the remote files of a model), `downloadFile` (stream one file to disk)
and a sequential `main` orchestrator.

HTTP and the local filesystem are modelled explicitly: an environment maps a
URL to the outcome the remote serves (connection failure, or a status code
with a body), and the filesystem is an association list from paths to byte
lists. Pure string/path helpers from Go's standard library are embedded
directly. Console printing and the progress bar are presentational
pass-throughs and carry no data, so they are not modelled.
-/

namespace Hugdl

/-- Go `strings.Replace(s, old, new, -1)` (= `strings.ReplaceAll`) on
character lists: each non-overlapping occurrence of `old`, scanning left to
right, is replaced by `new`. The empty-pattern branch of Go's `Replace`
(which inserts `new` at every boundary) is not exercised by this program,
whose only call uses the one-character pattern `"/"`. -/
def replaceAllChars (old new : List Char) : List Char → List Char
  | [] => []
  | c :: rest =>
    if h : old ≠ [] ∧ (c :: rest).take old.length = old then
      new ++ replaceAllChars old new ((c :: rest).drop old.length)
    else
      c :: replaceAllChars old new rest
termination_by s => s.length
decreasing_by
  · have hlen : 0 < old.length := List.length_pos.mpr h.1
    simp only [List.length_drop, List.length_cons]
    omega
  · simp

/-- Go `strings.ReplaceAll` on strings. -/
def goReplaceAll (s old new : String) : String :=
  String.mk (replaceAllChars old.data new.data s.data)

/-- The last path element, reversed: reading the characters from the end,
skip trailing separators, then collect up to the next separator. -/
def baseChars (p : String) : List Char :=
  (p.data.reverse.dropWhile (fun c => c = '/')).takeWhile (fun c => c ≠ '/')

/-- Go `filepath.Base` with the `/` separator (the form the repository-relative
API paths use): trailing separators are stripped, then everything up to and
including the last separator is dropped; `""` gives `"."` and an
all-separator path gives `"/"`. -/
def filepathBase (p : String) : String :=
  if p = "" then "."
  else if baseChars p = [] then "/"
  else String.mk (baseChars p).reverse

/-- Go `filepath.Join` on two components with the `/` separator. Go's `Join`
also runs `Clean` on the result; on the components this program produces
(no `"."`/`".."` segments, no duplicate separators) `Clean` is the identity,
so it is omitted. -/
def filepathJoin (a b : String) : String :=
  if a = "" then (if b = "" then "" else b)
  else a ++ "/" ++ b

/-- One element of the JSON array served by the tree-listing endpoint, as both
versions decode it: an anonymous struct with fields (tags) `type`, `path`
and optional `size`. -/
structure ApiItem where
  type : String
  path : String
  size : Int
deriving DecidableEq

/-- Outcome of `http.Get` on the listing URL: a connection-level failure, or a
response with a status code whose body either decodes to an `ApiItem` array
or fails to decode. -/
inductive ListingOutcome where
  | netError (msg : String)
  | response (status : Nat) (body : Except String (List ApiItem))

/-- The error cases of `getModelFiles`, mirroring its three `fmt.Errorf`
sites: `"failed to fetch model info: %w"`, `"API returned status: %d"`
(the status code is the carried datum) and
`"failed to decode API response: %w"`. -/
inductive ListError where
  | fetchFailed (msg : String)
  | apiStatus (status : Nat)
  | decodeFailed (msg : String)
deriving DecidableEq

/-- Outcome of the per-file GET in `downloadFile`: `http.NewRequest` failure,
`client.Do` failure, or a response with a status code, the byte stream the
body delivers, and whether the stream errors after delivering it
(`io.Copy` then returns an error having written the delivered bytes). -/
inductive DlOutcome where
  | reqError (msg : String)
  | netError (msg : String)
  | response (status : Nat) (body : List Nat) (streamErr : Bool)

/-- The error cases of `downloadFile`, mirroring its `fmt.Errorf` sites:
request creation, connection failure, `"download failed with status: %d"`,
`os.Create` failure and `io.Copy` failure. -/
inductive DlError where
  | requestFailed (msg : String)
  | downloadFailed (msg : String)
  | badStatus (status : Nat)
  | createFailed
  | saveFailed
deriving DecidableEq

/-- Go returns `error` with `nil` meaning success; `dlOk r` is the Go test
`err == nil` on a `downloadFile` result. -/
def dlOk : Except DlError Unit → Bool
  | .ok _ => true
  | .error _ => false

/-- Local filesystem model: association list from paths to file contents
(byte lists). -/
abbrev FileSystem := List (String × List Nat)

/-- Write (create or truncate-and-write) the file at `p`. -/
def setFile (fs : FileSystem) (p : String) (contents : List Nat) : FileSystem :=
  (p, contents) :: fs.filter (fun e => e.1 ≠ p)

/-- Contents of the file at `p`, if present. -/
def lookupFile (fs : FileSystem) (p : String) : Option (List Nat) :=
  match fs.find? (fun e => e.1 = p) with
  | some e => some e.2
  | none => none

/-- Environment of `downloadFile`: what the remote serves per URL, and
whether `os.Create` succeeds per path. -/
structure DlEnv where
  http : String → DlOutcome
  canCreate : String → Bool

/-- Does this outcome make `downloadFile` fail before `os.Create` for the
reasons named by the spec: a connection-level failure of `client.Do`, or a
non-200 response status? -/
def connOrStatusFailure : DlOutcome → Bool
  | .netError _ => true
  | .reqError _ => false
  | .response status _ _ => status != 200

/-! ## The full version (`main.go`) -/

namespace Full

/-- `ModelInfo` of `main.go`. The Go field names `Name`/`Type`/`Size`/`Path`
are kept lowercase (`Type` is reserved in Lean); `Size int64` is an
unbounded `Int` here — the program never arithmetically combines sizes, so
no overflow point exists to model. -/
structure ModelInfo where
  name : String
  type : String
  size : Int
  path : String
deriving DecidableEq

/-- `DownloadConfig` of `main.go`. -/
structure DownloadConfig where
  ModelName : String
  BaseURL : String
  APIURL : String
  OutputDir : String
  ModelDir : String
deriving DecidableEq

/-- The listing URL `fmt.Sprintf("%s/models/%s/tree/main", config.APIURL,
config.ModelName)`. -/
def listingURL (config : DownloadConfig) : String :=
  config.APIURL ++ "/models/" ++ config.ModelName ++ "/tree/main"

/-- The `ModelInfo` literal built inside `getModelFiles`'s loop for one
listing item. -/
def mkModelInfo (item : ApiItem) : ModelInfo :=
  { name := filepathBase item.path
    type := item.type
    size := item.size
    path := item.path }

/-- `getModelFiles` of `main.go`: GET the listing URL; connection failure and
non-200 status and decode failure are errors; otherwise the loop
`for _, item := range apiResponse { if item.Type == "file" { files =
append(files, ...) } }` builds the result. -/
def getModelFiles (config : DownloadConfig) (http : String → ListingOutcome) :
    Except ListError (List ModelInfo) :=
  match http (listingURL config) with
  | .netError msg => .error (.fetchFailed msg)
  | .response status body =>
    if status ≠ 200 then .error (.apiStatus status)
    else
      match body with
      | .error msg => .error (.decodeFailed msg)
      | .ok items =>
        .ok (items.foldl
          (fun files item =>
            if item.type = "file" then files ++ [mkModelInfo item] else files)
          [])

/-- The download URL `fmt.Sprintf("%s/%s/resolve/main/%s", config.BaseURL,
config.ModelName, file.Path)`. -/
def downloadURL (config : DownloadConfig) (file : ModelInfo) : String :=
  config.BaseURL ++ "/" ++ config.ModelName ++ "/resolve/main/" ++ file.path

/-- The output path `filepath.Join(config.ModelDir, file.Name)` computed in
`downloadFile`. -/
def outputPath (config : DownloadConfig) (file : ModelInfo) : String :=
  filepathJoin config.ModelDir file.name

/-- `downloadFile` of `main.go`, as a transition on the filesystem: build the
URL and output path, perform the request, fail (filesystem untouched) on
request/connection failure or non-200 status; otherwise `os.Create`
truncates the output file and `io.Copy` streams the delivered bytes into it
(the progress bar is a `MultiWriter` pass-through observer of the same
stream and does not alter it). Go returns only `error`; `nil` is `.ok ()`. -/
def downloadFile (config : DownloadConfig) (env : DlEnv) (fs : FileSystem)
    (file : ModelInfo) : Except DlError Unit × FileSystem :=
  match env.http (downloadURL config file) with
  | .reqError msg => (.error (.requestFailed msg), fs)
  | .netError msg => (.error (.downloadFailed msg), fs)
  | .response status body streamErr =>
    if status ≠ 200 then (.error (.badStatus status), fs)
    else if env.canCreate (outputPath config file) = false then
      (.error .createFailed, fs)
    else
      let fs1 := setFile fs (outputPath config file) body
      if streamErr then (.error .saveFailed, fs1)
      else (.ok (), fs1)

/-- The download loop of `main`: each file is attempted in order regardless of
earlier failures; the per-file outcome is recorded (the printed ❌/✅ line)
and `successCount` is incremented exactly when `err == nil`. Returns the
attempts in order, the success count, and the final filesystem. -/
def downloadLoop (config : DownloadConfig) (env : DlEnv) :
    List ModelInfo → FileSystem →
    List (ModelInfo × Except DlError Unit) × Nat × FileSystem
  | [], fs => ([], 0, fs)
  | f :: rest, fs =>
    let r := downloadFile config env fs f
    let t := downloadLoop config env rest r.2
    ((f, r.1) :: t.1, (if dlOk r.1 then t.2.1 + 1 else t.2.1), t.2.2)

/-- Environment of a whole run: the listing endpoint, whether
`os.MkdirAll(config.ModelDir, 0755)` succeeds, the per-file download
environment, and the initial filesystem. -/
structure MainEnv where
  listingHttp : String → ListingOutcome
  mkdirOk : Bool
  dl : DlEnv
  fs0 : FileSystem

/-- Observable result of a run: the process exit code, the per-file attempts
with their outcomes, the final success count, and the final filesystem. -/
structure MainResult where
  exitCode : Nat
  attempts : List (ModelInfo × Except DlError Unit)
  successCount : Nat
  fs : FileSystem

/-- The configuration `main` builds from the flags: fixed base URLs, and
`ModelDir = filepath.Join(outputDir, strings.ReplaceAll(modelName, "/", "_"))`. -/
def mkConfig (modelName outputDir : String) : DownloadConfig :=
  { ModelName := modelName
    BaseURL := "https://huggingface.co"
    APIURL := "https://huggingface.co/api"
    OutputDir := outputDir
    ModelDir := filepathJoin outputDir (goReplaceAll modelName "/" "_") }

/-- `main` of `main.go` after flag parsing: a listing failure exits with code
1 (`os.Exit(1)`); a directory-creation failure exits with code 1; otherwise
the loop runs over every listed file and the process ends normally
(exit code 0) whatever the individual outcomes. -/
def runMain (config : DownloadConfig) (env : MainEnv) : MainResult :=
  match getModelFiles config env.listingHttp with
  | .error _ => { exitCode := 1, attempts := [], successCount := 0, fs := env.fs0 }
  | .ok files =>
    if env.mkdirOk = false then
      { exitCode := 1, attempts := [], successCount := 0, fs := env.fs0 }
    else
      let out := downloadLoop config env.dl files env.fs0
      { exitCode := 0, attempts := out.1, successCount := out.2.1, fs := out.2.2 }

end Full

/-! ## The simple version (`hugdl.go`, `src/unnamed/part_000`) -/

namespace Simple

/-- `ModelInfo` of `hugdl.go` (textually the same struct as the full
version's, but a distinct declaration in a distinct Go file). -/
structure ModelInfo where
  name : String
  type : String
  size : Int
  path : String
deriving DecidableEq

/-- The listing URL `fmt.Sprintf("%s/models/%s/tree/main", apiURL,
modelName)`. -/
def listingURL (apiURL modelName : String) : String :=
  apiURL ++ "/models/" ++ modelName ++ "/tree/main"

/-- The `ModelInfo` literal built inside the simple `getModelFiles`'s loop. -/
def mkModelInfo (item : ApiItem) : ModelInfo :=
  { name := filepathBase item.path
    type := item.type
    size := item.size
    path := item.path }

/-- `getModelFiles` of `hugdl.go`: same logic as the full version, but taking
the API base URL and model name as separate arguments. -/
def getModelFiles (apiURL modelName : String) (http : String → ListingOutcome) :
    Except ListError (List ModelInfo) :=
  match http (listingURL apiURL modelName) with
  | .netError msg => .error (.fetchFailed msg)
  | .response status body =>
    if status ≠ 200 then .error (.apiStatus status)
    else
      match body with
      | .error msg => .error (.decodeFailed msg)
      | .ok items =>
        .ok (items.foldl
          (fun files item =>
            if item.type = "file" then files ++ [mkModelInfo item] else files)
          [])

end Simple

/-- Field-wise correspondence between a full-version entry and a
simple-version entry. -/
def infoMatches (a : Full.ModelInfo) (b : Simple.ModelInfo) : Prop :=
  a.name = b.name ∧ a.type = b.type ∧ a.size = b.size ∧ a.path = b.path

/-- Correspondence between the two versions' `getModelFiles` results: the same
error, or entry lists of the same length matching field-wise. -/
def resultMatches :
    Except ListError (List Full.ModelInfo) →
    Except ListError (List Simple.ModelInfo) → Prop
  | .error e, .error e' => e = e'
  | .ok l, .ok l' => List.Forall₂ infoMatches l l'
  | _, _ => False

/-! ## Concrete fixtures for witnesses and counterexamples -/

/-- A listing body with two `file` items (one in a subdirectory) and one
`directory` item. -/
def itemsW : List ApiItem :=
  [{ type := "file", path := "config.json", size := 642 },
   { type := "directory", path := "onnx", size := 0 },
   { type := "file", path := "onnx/model.onnx", size := 10 }]

/-- A concrete resolved configuration for the model `org/model`. -/
def cfgW : Full.DownloadConfig :=
  { ModelName := "org/model"
    BaseURL := "https://huggingface.co"
    APIURL := "https://huggingface.co/api"
    OutputDir := "out"
    ModelDir := "out/org_model" }

/-- The file entries `getModelFiles` builds from `itemsW`. -/
def filesW : List Full.ModelInfo :=
  [{ name := "config.json", type := "file", size := 642, path := "config.json" },
   { name := "model.onnx", type := "file", size := 10, path := "onnx/model.onnx" }]

/-- The subdirectory file entry from `itemsW`. -/
def fileW : Full.ModelInfo :=
  { name := "model.onnx", type := "file", size := 10, path := "onnx/model.onnx" }

/-- A listing endpoint serving `itemsW` with status 200. -/
def httpOkW : String → ListingOutcome := fun _ => .response 200 (.ok itemsW)

/-- A listing endpoint answering status 404. -/
def http404W : String → ListingOutcome := fun _ => .response 404 (.ok [])

/-- A listing endpoint serving a body with no `file`-typed item. -/
def httpDirW : String → ListingOutcome :=
  fun _ => .response 200 (.ok [{ type := "directory", path := "onnx", size := 0 }])

/-- A download environment where the subdirectory file's resolve URL answers
404 and every other URL succeeds. -/
def dlEnvW : DlEnv :=
  { http := fun url =>
      if url = "https://huggingface.co/org/model/resolve/main/onnx/model.onnx"
      then .response 404 [] false
      else .response 200 [7, 7] false
    canCreate := fun _ => true }

/-- A download environment delivering a 2-byte body on every URL. -/
def dlEnv2W : DlEnv :=
  { http := fun _ => .response 200 [0, 1] false, canCreate := fun _ => true }

/-- A download environment delivering a 4-byte body on every URL. -/
def dlEnv4W : DlEnv :=
  { http := fun _ => .response 200 [0, 1, 2, 3] false, canCreate := fun _ => true }

/-- A run environment: listing succeeds with `itemsW`, the output directory is
created, one of the two downloads will answer 404. -/
def envW : Full.MainEnv :=
  { listingHttp := httpOkW, mkdirOk := true, dl := dlEnvW, fs0 := [] }

/-- A run environment whose listing endpoint answers 404. -/
def env404W : Full.MainEnv :=
  { listingHttp := http404W, mkdirOk := true, dl := dlEnvW, fs0 := [] }

/-! ## Helper lemmas -/

/-- The `append`-accumulating loop both versions of `getModelFiles` run is
filter-then-map: generic over the entry constructor. -/
theorem foldl_files_eq {α : Type} (mk : ApiItem → α) (items : List ApiItem) :
    ∀ acc : List α,
      items.foldl
        (fun files item => if item.type = "file" then files ++ [mk item] else files)
        acc
      = acc ++ (items.filter (fun it => it.type == "file")).map mk := by
  induction items with
  | nil => intro acc; simp
  | cons it rest ih =>
    intro acc
    by_cases h : it.type = "file"
    · simp [List.foldl_cons, h, ih, List.filter_cons]
    · simp [List.foldl_cons, h, ih, List.filter_cons]

/-- On a 200-status listing that decodes to `items`, the full version's
`getModelFiles` returns the `file`-typed items, in order, mapped through
`mkModelInfo`. -/
theorem full_getModelFiles_ok (config : Full.DownloadConfig)
    (http : String → ListingOutcome) (items : List ApiItem)
    (h : http (Full.listingURL config) = .response 200 (.ok items)) :
    Full.getModelFiles config http
      = .ok ((items.filter (fun it => it.type == "file")).map Full.mkModelInfo) := by
  unfold Full.getModelFiles
  rw [h]
  simp [foldl_files_eq]

/-! ## Claims -/

/-- C1: for every decoded listing response (status 200, body decoding to
`items`), `getModelFiles` returns exactly as many entries as there are items
with `type == "file"`, and each returned entry's name is `filepath.Base` of
its source item's path. -/
theorem getModelFiles_fileCount_names (config : Full.DownloadConfig)
    (http : String → ListingOutcome) (items : List ApiItem)
    (h : http (Full.listingURL config) = .response 200 (.ok items)) :
    ∃ files, Full.getModelFiles config http = .ok files ∧
      files.length = items.countP (fun it => it.type == "file") ∧
      ∀ f ∈ files, ∃ it ∈ items, it.type = "file" ∧
        f.path = it.path ∧ f.name = filepathBase it.path := by
  refine ⟨_, full_getModelFiles_ok config http items h, ?_, ?_⟩
  · simp [List.countP_eq_length_filter]
  · intro f hf
    simp only [List.mem_map, List.mem_filter] at hf
    obtain ⟨it, ⟨hmem, htype⟩, rfl⟩ := hf
    exact ⟨it, hmem, by simpa using htype, rfl, rfl⟩

/-- Witness for C1 on the concrete listing `itemsW`: three items, two of them
files. -/
theorem getModelFiles_fileCount_names_witness :
    ∃ files, Full.getModelFiles cfgW httpOkW = .ok files ∧
      files.length = itemsW.countP (fun it => it.type == "file") ∧
      ∀ f ∈ files, ∃ it ∈ itemsW, it.type = "file" ∧
        f.path = it.path ∧ f.name = filepathBase it.path :=
  getModelFiles_fileCount_names cfgW httpOkW itemsW rfl

/-- C7: a listing response that decodes successfully but holds zero items of
type `"file"` makes `getModelFiles` return the empty list and no error. -/
theorem getModelFiles_noFiles_empty (config : Full.DownloadConfig)
    (http : String → ListingOutcome) (items : List ApiItem)
    (h : http (Full.listingURL config) = .response 200 (.ok items))
    (h0 : items.countP (fun it => it.type == "file") = 0) :
    Full.getModelFiles config http = .ok [] := by
  rw [full_getModelFiles_ok config http items h]
  have hnil : items.filter (fun it => it.type == "file") = [] := by
    rw [← List.length_eq_zero, ← List.countP_eq_length_filter]
    exact h0
  rw [hnil]
  rfl

/-- Witness for C7 on a listing holding a single `directory` item. -/
theorem getModelFiles_noFiles_empty_witness :
    Full.getModelFiles cfgW httpDirW = .ok [] :=
  getModelFiles_noFiles_empty cfgW httpDirW
    [{ type := "directory", path := "onnx", size := 0 }] rfl rfl

/-- C8: for every decoded listing response, `getModelFiles` returns precisely
the subsequence of `type == "file"` items in the order they appear in the
response body (filter then map, no re-sorting). -/
theorem getModelFiles_preserves_order (config : Full.DownloadConfig)
    (http : String → ListingOutcome) (items : List ApiItem)
    (h : http (Full.listingURL config) = .response 200 (.ok items)) :
    Full.getModelFiles config http
      = .ok ((items.filter (fun it => it.type == "file")).map Full.mkModelInfo) :=
  full_getModelFiles_ok config http items h

/-- Witness for C8 on the concrete listing `itemsW`. -/
theorem getModelFiles_preserves_order_witness :
    Full.getModelFiles cfgW httpOkW
      = .ok ((itemsW.filter (fun it => it.type == "file")).map Full.mkModelInfo) :=
  getModelFiles_preserves_order cfgW httpOkW itemsW rfl

/-- C3: a non-200 listing status makes `getModelFiles` return the
status-carrying error (`"API returned status: %d"`), and `main` then calls
`os.Exit(1)`: the exit code is non-zero. -/
theorem listingBadStatus_fatal (config : Full.DownloadConfig)
    (env : Full.MainEnv) (status : Nat) (body : Except String (List ApiItem))
    (h : env.listingHttp (Full.listingURL config) = .response status body)
    (hs : status ≠ 200) :
    Full.getModelFiles config env.listingHttp = .error (.apiStatus status) ∧
    (Full.runMain config env).exitCode ≠ 0 := by
  have hg : Full.getModelFiles config env.listingHttp
      = .error (.apiStatus status) := by
    unfold Full.getModelFiles
    rw [h]
    simp [hs]
  refine ⟨hg, ?_⟩
  unfold Full.runMain
  rw [hg]
  simp

/-- Witness for C3 on a listing endpoint answering 404. -/
theorem listingBadStatus_fatal_witness :
    Full.getModelFiles cfgW env404W.listingHttp = .error (.apiStatus 404) ∧
    (Full.runMain cfgW env404W).exitCode ≠ 0 :=
  listingBadStatus_fatal cfgW env404W 404 (.ok []) rfl (by decide)

/-- The download loop of `main` attempts every file in listing order whatever
the individual outcomes, and its success count is the number of attempts
whose own result is success. -/
theorem downloadLoop_spec (config : Full.DownloadConfig) (env : DlEnv) :
    ∀ (files : List Full.ModelInfo) (fs : FileSystem),
      (Full.downloadLoop config env files fs).1.map Prod.fst = files ∧
      (Full.downloadLoop config env files fs).2.1
        = (Full.downloadLoop config env files fs).1.countP (fun a => dlOk a.2) := by
  intro files
  induction files with
  | nil => intro fs; simp [Full.downloadLoop]
  | cons f rest ih =>
    intro fs
    obtain ⟨ih1, ih2⟩ := ih (Full.downloadFile config env fs f).2
    refine ⟨by simp [Full.downloadLoop, ih1], ?_⟩
    by_cases hd : dlOk (Full.downloadFile config env fs f).1 = true
    · simp [Full.downloadLoop, ih2, List.countP_cons, hd]
    · simp [Full.downloadLoop, ih2, List.countP_cons, hd]

/-- C2: once the listing succeeded and the output directory was created, the
orchestrator attempts every listed entry in order — a failing download
(e.g. a non-200 status) is recorded for that entry only, the success count
is exactly the number of succeeding attempts, and the process exit code is
0. -/
theorem perFileFailure_nonfatal (config : Full.DownloadConfig)
    (env : Full.MainEnv) (files : List Full.ModelInfo)
    (h : Full.getModelFiles config env.listingHttp = .ok files)
    (hm : env.mkdirOk = true) :
    (Full.runMain config env).exitCode = 0 ∧
    (Full.runMain config env).attempts.map Prod.fst = files ∧
    (Full.runMain config env).successCount
      = (Full.runMain config env).attempts.countP (fun a => dlOk a.2) := by
  unfold Full.runMain
  rw [h, hm]
  simpa using downloadLoop_spec config env.dl files env.fs0

/-- Witness for C2: listing `itemsW` yields two files; the second one's
download answers 404, yet both are attempted and the exit code is 0. -/
theorem perFileFailure_nonfatal_witness :
    (Full.runMain cfgW envW).exitCode = 0 ∧
    (Full.runMain cfgW envW).attempts.map Prod.fst = filesW ∧
    (Full.runMain cfgW envW).successCount
      = (Full.runMain cfgW envW).attempts.countP (fun a => dlOk a.2) :=
  perFileFailure_nonfatal cfgW envW filesW rfl rfl

/-- Go's generic substring replacement, at the one-character pattern `/` and
replacement `_`, is the character-wise substitution. -/
theorem replaceAllChars_slash (s : List Char) :
    replaceAllChars ['/'] ['_'] s
      = s.map (fun c => if c = '/' then '_' else c) := by
  induction s with
  | nil => simp [replaceAllChars]
  | cons c rest ih =>
    rw [replaceAllChars]
    by_cases hc : c = '/'
    · subst hc
      simp [List.take, List.drop, ih]
    · have hcond : ¬((['/'] : List Char) ≠ [] ∧ (c :: rest).take 1 = ['/']) := by
        simp [List.take, hc]
      simp [hcond, ih, hc]

/-- `strings.ReplaceAll(s, "/", "_")` maps each character of `s`, sending `/`
to `_` and fixing everything else. -/
theorem goReplaceAll_slash (s : String) :
    (goReplaceAll s "/" "_").data
      = s.data.map (fun c => if c = '/' then '_' else c) := by
  show (String.mk (replaceAllChars "/".data "_".data s.data)).data = _
  exact replaceAllChars_slash s.data

/-- C4: the local model directory is the output root joined with the model
identifier in which every `/` is replaced by `_`; character-wise, every `/`
of the identifier becomes `_` and all other characters are unchanged; e.g.
`Qwen/Qwen2.5-Coder-0.5B` becomes `Qwen_Qwen2.5-Coder-0.5B`. -/
theorem modelDir_slash_to_underscore (modelName outputDir : String) :
    (Full.mkConfig modelName outputDir).ModelDir
      = filepathJoin outputDir (goReplaceAll modelName "/" "_") ∧
    (goReplaceAll modelName "/" "_").data
      = modelName.data.map (fun c => if c = '/' then '_' else c) ∧
    goReplaceAll "Qwen/Qwen2.5-Coder-0.5B" "/" "_" = "Qwen_Qwen2.5-Coder-0.5B" := by
  refine ⟨rfl, goReplaceAll_slash modelName, ?_⟩
  have h := goReplaceAll_slash "Qwen/Qwen2.5-Coder-0.5B"
  have hmap : ("Qwen/Qwen2.5-Coder-0.5B".data.map
      (fun c => if c = '/' then '_' else c))
      = "Qwen_Qwen2.5-Coder-0.5B".data := by decide
  rw [hmap] at h
  exact String.ext h

/-- Searching a filesystem from which the entries at `p` were removed, for a
path `q ≠ p`, finds what the original filesystem holds at `q`. -/
theorem find_filter_ne (p q : String) (hq : q ≠ p) :
    ∀ fs : FileSystem,
      (fs.filter (fun e => e.1 ≠ p)).find? (fun e => e.1 = q)
        = fs.find? (fun e => e.1 = q) := by
  intro fs
  induction fs with
  | nil => rfl
  | cons a fs ih =>
    rw [List.filter_cons]
    by_cases hap : a.1 = p
    · have haq : ¬(a.1 = q) := fun hh => hq (hap ▸ hh.symm)
      rw [if_neg (by simpa using hap)]
      rw [ih, List.find?_cons_of_neg _ (by simpa using haq)]
    · rw [if_pos (by simpa using hap)]
      by_cases haq : a.1 = q
      · rw [List.find?_cons_of_pos _ (by simpa using haq),
          List.find?_cons_of_pos _ (by simpa using haq)]
      · rw [List.find?_cons_of_neg _ (by simpa using haq),
          List.find?_cons_of_neg _ (by simpa using haq), ih]

/-- Writing the file at `p` leaves every other path's contents unchanged. -/
theorem lookupFile_setFile_ne (fs : FileSystem) (p q : String) (c : List Nat)
    (hq : q ≠ p) :
    lookupFile (setFile fs p c) q = lookupFile fs q := by
  have hpq : ¬(((p, c) : String × List Nat).1 = q) := fun hh => hq hh.symm
  unfold lookupFile setFile
  rw [List.find?_cons_of_neg _ (by simpa using hpq), find_filter_ne p q hq fs]

/-- Writing the file at `p` makes its contents readable at `p`. -/
theorem lookupFile_setFile_self (fs : FileSystem) (p : String) (c : List Nat) :
    lookupFile (setFile fs p c) p = some c := by
  unfold lookupFile setFile
  rw [List.find?_cons_of_pos _ (by simp)]

/-- `filepath.Base` output never contains a separator, except in the
degenerate all-separators case where it is `"/"` itself. -/
theorem filepathBase_no_slash (p : String) :
    filepathBase p = "/" ∨ ∀ c ∈ (filepathBase p).data, c ≠ '/' := by
  unfold filepathBase
  by_cases hp : p = ""
  · rw [if_pos hp]
    right
    intro c hc
    have hdot : (".".data : List Char) = ['.'] := rfl
    rw [hdot] at hc
    simp at hc
    subst hc
    decide
  · rw [if_neg hp]
    by_cases ht : baseChars p = []
    · rw [if_pos ht]
      left
      rfl
    · rw [if_neg ht]
      right
      intro c hc
      have hc2 : c ∈ (baseChars p).reverse := hc
      have hmem : c ∈ (p.data.reverse.dropWhile (fun c => c = '/')).takeWhile
          (fun c => c ≠ '/') := List.mem_reverse.mp hc2
      have := List.mem_takeWhile_imp hmem
      simpa using this

/-- C5: `downloadFile` touches the filesystem only at
`filepath.Join(modelDir, file.Name)`; on success the downloaded bytes land
exactly there; and for the entries `getModelFiles` builds (whose name is
`filepath.Base` of the remote path), that name carries no `/`, so every
file lands flat in the one model directory. -/
theorem downloadFile_flatOutput (config : Full.DownloadConfig) (env : DlEnv)
    (fs : FileSystem) (file : Full.ModelInfo)
    (hname : file.name = filepathBase file.path) :
    Full.outputPath config file
      = filepathJoin config.ModelDir (filepathBase file.path) ∧
    (∀ q, q ≠ Full.outputPath config file →
      lookupFile (Full.downloadFile config env fs file).2 q = lookupFile fs q) ∧
    ((Full.downloadFile config env fs file).1 = .ok () →
      ∃ body, lookupFile (Full.downloadFile config env fs file).2
          (Full.outputPath config file) = some body) ∧
    (file.name = "/" ∨ ∀ c ∈ file.name.data, c ≠ '/') := by
  refine ⟨by unfold Full.outputPath; rw [hname], ?_, ?_,
    hname ▸ filepathBase_no_slash file.path⟩
  · intro q hq
    unfold Full.downloadFile
    cases henv : env.http (Full.downloadURL config file) with
    | reqError msg => rfl
    | netError msg => rfl
    | response status body streamErr =>
      by_cases hs : status ≠ 200
      · simp [hs]
      · by_cases hc : env.canCreate (Full.outputPath config file) = false
        · simp [hs, hc]
        · cases streamErr <;>
            simp [hs, hc, lookupFile_setFile_ne fs (Full.outputPath config file) q body hq]
  · intro hok
    unfold Full.downloadFile at hok ⊢
    cases henv : env.http (Full.downloadURL config file) with
    | reqError msg => rw [henv] at hok; simp at hok
    | netError msg => rw [henv] at hok; simp at hok
    | response status body streamErr =>
      rw [henv] at hok
      by_cases hs : status ≠ 200
      · simp [hs] at hok
      · by_cases hc : env.canCreate (Full.outputPath config file) = false
        · simp [hs, hc] at hok
        · cases streamErr with
          | false =>
            exact ⟨body, by
              simp [hs, hc, lookupFile_setFile_self fs (Full.outputPath config file) body]⟩
          | true => simp [hs, hc] at hok

/-- Witness for C5 on the subdirectory entry `onnx/model.onnx`: the output
path is `out/org_model/model.onnx`. -/
theorem downloadFile_flatOutput_witness :
    Full.outputPath cfgW fileW
      = filepathJoin cfgW.ModelDir (filepathBase fileW.path) ∧
    (∀ q, q ≠ Full.outputPath cfgW fileW →
      lookupFile (Full.downloadFile cfgW dlEnv2W [] fileW).2 q = lookupFile [] q) ∧
    ((Full.downloadFile cfgW dlEnv2W [] fileW).1 = .ok () →
      ∃ body, lookupFile (Full.downloadFile cfgW dlEnv2W [] fileW).2
          (Full.outputPath cfgW fileW) = some body) ∧
    (fileW.name = "/" ∨ ∀ c ∈ fileW.name.data, c ≠ '/') :=
  downloadFile_flatOutput cfgW dlEnv2W [] fileW rfl

/-- C9: when the per-file GET fails at the connection level or answers a
non-200 status, `downloadFile` returns an error before `os.Create` is
reached: the output file is neither created nor truncated. -/
theorem downloadFile_earlyFailure_fs_unchanged (config : Full.DownloadConfig)
    (env : DlEnv) (fs : FileSystem) (file : Full.ModelInfo)
    (h : connOrStatusFailure (env.http (Full.downloadURL config file)) = true) :
    (∃ e, (Full.downloadFile config env fs file).1 = .error e) ∧
    (Full.downloadFile config env fs file).2 = fs := by
  unfold Full.downloadFile
  cases henv : env.http (Full.downloadURL config file) with
  | reqError msg => rw [henv] at h; simp [connOrStatusFailure] at h
  | netError msg => exact ⟨⟨.downloadFailed msg, rfl⟩, rfl⟩
  | response status body streamErr =>
    rw [henv] at h
    simp only [connOrStatusFailure] at h
    have hs : status ≠ 200 := by simpa using h
    refine ⟨⟨.badStatus status, ?_⟩, ?_⟩ <;> simp [hs]

/-- Witness for C9: the 404 answer on `onnx/model.onnx` leaves the (empty)
filesystem untouched. -/
theorem downloadFile_earlyFailure_fs_unchanged_witness :
    (∃ e, (Full.downloadFile cfgW dlEnvW [] fileW).1 = .error e) ∧
    (Full.downloadFile cfgW dlEnvW [] fileW).2 = [] :=
  downloadFile_earlyFailure_fs_unchanged cfgW dlEnvW [] fileW (by decide)

/-- C6 counterexample: `downloadFile` does not return the count of bytes
written as its result value. Two successful downloads of the same entry
write 2 bytes and 4 bytes respectively, yet both return the very same
value (Go's `nil` error, `.ok ()` here), which therefore carries no byte
count. -/
theorem downloadFile_result_no_byteCount :
    (Full.downloadFile cfgW dlEnv2W [] fileW).1 = .ok () ∧
    (Full.downloadFile cfgW dlEnv4W [] fileW).1 = .ok () ∧
    (lookupFile (Full.downloadFile cfgW dlEnv2W [] fileW).2
        (Full.outputPath cfgW fileW)).map List.length = some 2 ∧
    (lookupFile (Full.downloadFile cfgW dlEnv4W [] fileW).2
        (Full.outputPath cfgW fileW)).map List.length = some 4 ∧
    (Full.downloadFile cfgW dlEnv2W [] fileW).1
      = (Full.downloadFile cfgW dlEnv4W [] fileW).1 :=
  ⟨rfl, rfl, rfl, rfl, rfl⟩

/-- C6 amended: on every successful download (200 status, stream and file
creation succeed), `downloadFile` returns Go's `nil` error — a success value
carrying no byte count — and the count of bytes written is witnessed by the
local file, which then holds exactly the response body (the simple version
prints this count; neither version returns it). -/
theorem downloadFile_success_writesBody (config : Full.DownloadConfig)
    (env : DlEnv) (fs : FileSystem) (file : Full.ModelInfo) (body : List Nat)
    (hh : env.http (Full.downloadURL config file) = .response 200 body false)
    (hc : env.canCreate (Full.outputPath config file) = true) :
    Full.downloadFile config env fs file
      = (.ok (), setFile fs (Full.outputPath config file) body) := by
  unfold Full.downloadFile
  rw [hh]
  simp [hc]

/-- Witness for the amended C6: the 2-byte download succeeds and stores
exactly those 2 bytes at the output path. -/
theorem downloadFile_success_writesBody_witness :
    Full.downloadFile cfgW dlEnv2W [] fileW
      = (.ok (), setFile [] (Full.outputPath cfgW fileW) [0, 1]) :=
  downloadFile_success_writesBody cfgW dlEnv2W [] fileW [0, 1] rfl rfl

/-- The two versions build field-wise matching entries from the same items. -/
theorem forall₂_map_mkModelInfo (l : List ApiItem) :
    List.Forall₂ infoMatches (l.map Full.mkModelInfo) (l.map Simple.mkModelInfo) := by
  induction l with
  | nil => simp
  | cons a l ih => exact List.Forall₂.cons ⟨rfl, rfl, rfl, rfl⟩ ih

/-- C10: on every listing outcome, `getModelFiles` of the full version
(`main.go`) and of the simple version (`hugdl.go`) agree: the same error, or
file-entry lists of the same length whose entries match on name, type, size
and path. -/
theorem getModelFiles_versions_agree (config : Full.DownloadConfig)
    (http : String → ListingOutcome) :
    resultMatches (Full.getModelFiles config http)
      (Simple.getModelFiles config.APIURL config.ModelName http) := by
  unfold Full.getModelFiles Simple.getModelFiles
  have hurl : Simple.listingURL config.APIURL config.ModelName
      = Full.listingURL config := rfl
  rw [hurl]
  cases http (Full.listingURL config) with
  | netError msg => exact rfl
  | response status body =>
    by_cases hs : status = 200
    · subst hs
      simp only [ne_eq, not_true_eq_false, if_false, reduceIte]
      cases body with
      | error msg => exact rfl
      | ok items =>
        simp only [resultMatches, foldl_files_eq, List.nil_append]
        exact forall₂_map_mkModelInfo _
    · simp [hs, resultMatches]

end Hugdl
